import Mathlib

/-!
Verification of the cognesis-client-emulator turn-orchestration core.

This file shallowly embeds the TypeScript sources (`src/utils.ts`,
`src/fixtures.ts`, `src/sessionStore.ts`, `src/sse.ts`, `src/app.ts`) into
Lean 4 and proves the behavioural claims about them.  JavaScript numbers are
modelled as rationals (ℚ), timestamps as natural numbers of epoch
milliseconds, JavaScript `Map`s as association lists with unique keys, and
thrown errors as `Except` results.  `Math.random()` draws are passed in as
explicit parameters in `[0, 1)`.
-/

namespace Emu

/-! ## SHA-256 (the digest behind `hashString` in `src/utils.ts`)

`hashString` in the source delegates to Node's `crypto.createHash("sha256")`
over the UTF-8 encoding of its argument and renders the digest as lowercase
hex.  We implement that digest executably so theorems about
`selectDeterministic` and the idempotency cache can be evaluated on concrete
inputs. -/

def w32 : Nat := 4294967296

def add32 (a b : Nat) : Nat := (a + b) % w32

def rotr32 (n x : Nat) : Nat := ((x >>> n) ||| (x <<< (32 - n))) &&& 0xffffffff

def shr32 (n x : Nat) : Nat := x >>> n

def not32 (x : Nat) : Nat := x ^^^ 0xffffffff

/-- The 64 SHA-256 round constants, in decimal. -/
def sha256K : List Nat :=
  [1116352408, 1899447441, 3049323471, 3921009573, 961987163,
   1508970993, 2453635748, 2870763221, 3624381080, 310598401,
   607225278, 1426881987, 1925078388, 2162078206, 2614888103,
   3248222580, 3835390401, 4022224774, 264347078, 604807628,
   770255983, 1249150122, 1555081692, 1996064986, 2554220882,
   2821834349, 2952996808, 3210313671, 3336571891, 3584528711,
   113926993, 338241895, 666307205, 773529912, 1294757372,
   1396182291, 1695183700, 1986661051, 2177026350, 2456956037,
   2730485921, 2820302411, 3259730800, 3345764771, 3516065817,
   3600352804, 4094571909, 275423344, 430227734, 506948616,
   659060556, 883997877, 958139571, 1322822218, 1537002063,
   1747873779, 1955562222, 2024104815, 2227730452, 2361852424,
   2428436474, 2756734187, 3204031479, 3329325298]

/-- The eight SHA-256 initial hash words, in decimal. -/
def sha256H0 : List Nat :=
  [1779033703, 3144134277, 1013904242, 2773480762,
   1359893119, 2600822924, 528734635, 1541459225]

/-- UTF-8 encoding of a single character, as byte values. -/
def utf8Bytes (c : Char) : List Nat :=
  let n := c.toNat
  if n < 0x80 then [n]
  else if n < 0x800 then
    [0xc0 ||| (n >>> 6), 0x80 ||| (n &&& 0x3f)]
  else if n < 0x10000 then
    [0xe0 ||| (n >>> 12), 0x80 ||| ((n >>> 6) &&& 0x3f), 0x80 ||| (n &&& 0x3f)]
  else
    [0xf0 ||| (n >>> 18), 0x80 ||| ((n >>> 12) &&& 0x3f),
     0x80 ||| ((n >>> 6) &&& 0x3f), 0x80 ||| (n &&& 0x3f)]

def strBytes (s : String) : List Nat :=
  s.toList.flatMap utf8Bytes

/-- SHA-256 padding: append 0x80, zero bytes to 56 mod 64, and the bit length
as an 8-byte big-endian integer. -/
def sha256Pad (msg : List Nat) : List Nat :=
  let len := msg.length
  let bitLen := len * 8
  let zeros := (56 + 64 - ((len + 1) % 64)) % 64
  msg ++ [0x80] ++ List.replicate zeros 0 ++
    ((List.range 8).map fun i => (bitLen >>> (8 * (7 - i))) &&& 0xff)

def chunksGo : Nat → List Nat → List (List Nat)
  | 0, _ => []
  | n + 1, l => l.take 64 :: chunksGo n (l.drop 64)

/-- Split the padded byte stream into 64-byte blocks (its length is always a
multiple of 64). -/
def chunks64 (l : List Nat) : List (List Nat) :=
  chunksGo ((l.length + 63) / 64) l

def wordsOfChunk (chunk : List Nat) : List Nat :=
  (List.range 16).map fun i =>
    (chunk.getD (4 * i) 0 <<< 24) ||| (chunk.getD (4 * i + 1) 0 <<< 16) |||
    (chunk.getD (4 * i + 2) 0 <<< 8) ||| chunk.getD (4 * i + 3) 0

def smallSigma0 (x : Nat) : Nat := rotr32 7 x ^^^ rotr32 18 x ^^^ shr32 3 x
def smallSigma1 (x : Nat) : Nat := rotr32 17 x ^^^ rotr32 19 x ^^^ shr32 10 x
def bigSigma0 (x : Nat) : Nat := rotr32 2 x ^^^ rotr32 13 x ^^^ rotr32 22 x
def bigSigma1 (x : Nat) : Nat := rotr32 6 x ^^^ rotr32 11 x ^^^ rotr32 25 x

def extendSchedule (w16 : List Nat) : Array Nat :=
  (List.range 48).foldl
    (fun w j =>
      let i := j + 16
      w.push (add32 (add32 (w.getD (i - 16) 0) (smallSigma0 (w.getD (i - 15) 0)))
                    (add32 (w.getD (i - 7) 0) (smallSigma1 (w.getD (i - 2) 0)))))
    w16.toArray

structure Sha256State where
  a : Nat
  b : Nat
  c : Nat
  d : Nat
  e : Nat
  f : Nat
  g : Nat
  h : Nat

def sha256Round (st : Sha256State) (kw : Nat × Nat) : Sha256State :=
  let s1 := bigSigma1 st.e
  let ch := (st.e &&& st.f) ^^^ (not32 st.e &&& st.g)
  let temp1 := add32 (add32 (add32 st.h s1) (add32 ch kw.1)) kw.2
  let s0 := bigSigma0 st.a
  let maj := (st.a &&& st.b) ^^^ (st.a &&& st.c) ^^^ (st.b &&& st.c)
  let temp2 := add32 s0 maj
  { a := add32 temp1 temp2, b := st.a, c := st.b, d := st.c,
    e := add32 st.d temp1, f := st.e, g := st.f, h := st.g }

def sha256Compress (hv : List Nat) (chunk : List Nat) : List Nat :=
  let w := extendSchedule (wordsOfChunk chunk)
  let init : Sha256State :=
    { a := hv.getD 0 0, b := hv.getD 1 0, c := hv.getD 2 0, d := hv.getD 3 0,
      e := hv.getD 4 0, f := hv.getD 5 0, g := hv.getD 6 0, h := hv.getD 7 0 }
  let fin := (sha256K.zip w.toList).foldl sha256Round init
  [add32 (hv.getD 0 0) fin.a, add32 (hv.getD 1 0) fin.b,
   add32 (hv.getD 2 0) fin.c, add32 (hv.getD 3 0) fin.d,
   add32 (hv.getD 4 0) fin.e, add32 (hv.getD 5 0) fin.f,
   add32 (hv.getD 6 0) fin.g, add32 (hv.getD 7 0) fin.h]

def sha256Words (s : String) : List Nat :=
  (chunks64 (sha256Pad (strBytes s))).foldl sha256Compress sha256H0

def hexDigitChar (n : Nat) : Char :=
  if n < 10 then Char.ofNat (48 + n) else Char.ofNat (87 + n)

/-- Lowercase hex rendering of a 32-bit word, always 8 characters. -/
def hex8 (word : Nat) : List Char :=
  (List.range 8).map fun i => hexDigitChar ((word >>> (4 * (7 - i))) &&& 15)

/-- `hashString` from `src/utils.ts`: sha256 of the string, hex-encoded. -/
def hashString (s : String) : String :=
  String.mk ((sha256Words s).flatMap hex8)

/-! ## The remaining pure helpers of `src/utils.ts` -/

inductive EmuError where
  | sessionNotFound
  | idempotencyBodyMismatch
  | invalidArgument (msg : String)
  | invalidMediaPath
  | fixtureMissing (msg : String)
deriving DecidableEq, Repr

/-- Value of a lowercase/uppercase hex digit, as used by `parseInt(seg, 16)`
on the hex output of `hashString` (whose characters are always valid). -/
def hexVal (c : Char) : Nat :=
  if 48 ≤ c.toNat ∧ c.toNat ≤ 57 then c.toNat - 48
  else if 97 ≤ c.toNat ∧ c.toNat ≤ 102 then c.toNat - 87
  else if 65 ≤ c.toNat ∧ c.toNat ≤ 70 then c.toNat - 55
  else 0

def parseHexNat (s : String) : Nat :=
  s.toList.foldl (fun acc c => acc * 16 + hexVal c) 0

/-- `selectDeterministic` from `src/utils.ts`: throws on an empty list, else
indexes by the first 8 hex characters of the sha256 of `key`, reduced modulo
the list length. -/
def selectDeterministic {α : Type} (items : List α) (key : String) :
    Except EmuError α :=
  if h : items.length = 0 then
    .error (.invalidArgument "Cannot select from empty list")
  else
    let hash := hashString key
    let segment := hash.take 8
    let index := parseHexNat segment % items.length
    .ok (items.get ⟨index, Nat.mod_lt _ (Nat.pos_of_ne_zero h)⟩)

/-- `withJitter` from `src/utils.ts`.  `r` is the `Math.random()` draw. -/
def withJitter (base jitter r : ℚ) : ℚ :=
  if jitter ≤ 0 then max 0 base
  else
    let delta : ℚ := (⌊r * (jitter * 2 + 1)⌋ : ℤ) - jitter
    max 0 (base + delta)

/-- `percentToHit` from `src/utils.ts`.  `r` is the `Math.random()` draw. -/
def percentToHit (pct r : ℚ) : Bool :=
  if pct ≤ 0 then false
  else if 100 ≤ pct then true
  else decide (r * 100 < pct)

/-! ### `sanitizeMediaPath` from `src/utils.ts`

`input.split("?")[0]`, backslashes to slashes, strip leading slashes,
collapse every run of two or more dots to a single dot, then reject if the
result still contains `".."`. -/

/-- The regex replacement `/\.\.+/g → "."`: each maximal run of two or more
consecutive dots is replaced by a single dot.  Implemented by merging
adjacent dots one pair at a time, which yields the same result because every
maximal run of `n ≥ 2` dots collapses to a single dot either way. -/
def collapseDots : List Char → List Char
  | [] => []
  | [c] => [c]
  | c :: d :: rest =>
    if c = '.' ∧ d = '.' then
      collapseDots ('.' :: rest)
    else
      c :: collapseDots (d :: rest)
termination_by l => l.length
decreasing_by
  · simp
  · simp

/-- `normalized.includes("..")`: two consecutive dots occur. -/
def hasDoubleDot : List Char → Bool
  | [] => false
  | [_] => false
  | c :: d :: rest => (c = '.' && d = '.') || hasDoubleDot (d :: rest)

/-- The pure normalisation pipeline inside `sanitizeMediaPath`. -/
def normalizeMediaChars (input : List Char) : List Char :=
  let base := input.takeWhile (fun c => c ≠ '?')
  collapseDots (((base.map fun c => if c = '\\' then '/' else c).dropWhile
    (fun c => c = '/')))

/-- `sanitizeMediaPath` from `src/utils.ts`. -/
def sanitizeMediaPath (input : String) : Except EmuError String :=
  let normalized := normalizeMediaChars input.toList
  if hasDoubleDot normalized then .error .invalidMediaPath
  else .ok (String.mk normalized)

instance {ε α : Type} [DecidableEq ε] [DecidableEq α] :
    DecidableEq (Except ε α) := fun x y =>
  match x, y with
  | .ok a, .ok b =>
    if h : a = b then isTrue (by rw [h])
    else isFalse (fun hh => h (Except.ok.inj hh))
  | .error a, .error b =>
    if h : a = b then isTrue (by rw [h])
    else isFalse (fun hh => h (Except.error.inj hh))
  | .ok _, .error _ => isFalse Except.noConfusion
  | .error _, .ok _ => isFalse Except.noConfusion

/-! ## Data model (`src/types.ts`)

JavaScript numbers are rationals, optional fields are `Option`s.  The
`meta : Record<string, unknown>` bag of a timeline is modelled by the record
of exactly the keys the sources read or write.  ISO-8601 timestamp strings
(`share_ref.expires_at`) are modelled by the epoch-millisecond instant they
render. -/

structure TimelineTrack where
  type : String
  id : String := ""
  /-- `track.source.url` (the `source` descriptor's `url` entry). -/
  source_url : Option String := none
  /-- a direct `track.url`, consulted as fallback by the SSE envelope map. -/
  url : Option String := none
  offset : Option ℚ := none
  duration : Option ℚ := none
deriving DecidableEq, Repr

structure TimelineSwapPoint where
  «at» : ℚ
  replace : String := ""
deriving DecidableEq, Repr

structure TimelineShareRef where
  id : String
  ttl_s : ℚ
  poster : Option String := none
  /-- `expires_at` ISO string, modelled as the epoch-ms instant it encodes. -/
  expires_at_ms : Option ℚ := none
deriving DecidableEq, Repr

/-- The keys of `timeline.meta` that the emulator reads or writes. -/
structure TimelineMeta where
  fixture_id : Option String := none
  stage_idle_after_ms : Option ℚ := none
  miss_clip : Option Bool := none
  miss_tts : Option Bool := none
  pair_audio_only : Option Bool := none
deriving DecidableEq, Repr

structure TimelineV1 where
  version : String := "1"
  clock : String := "audio"
  start_at : String := "now"
  sources_badge : Option Bool := none
  tracks : List TimelineTrack
  swap_points : Option (List TimelineSwapPoint) := none
  share_ref : Option TimelineShareRef := none
  meta : Option TimelineMeta := none
deriving DecidableEq, Repr

structure LoadedFixture where
  id : String
  persona_id : String
  timeline_path : String := ""
  swap_enabled : Option Bool := none
  share_enabled : Option Bool := none
  idle_after_ms : Option ℚ := none
  timeline : TimelineV1
deriving DecidableEq, Repr

structure MissFlags where
  tts : Bool := false
  clip : Bool := false
deriving DecidableEq, Repr

structure LatencyMs where
  audio : ℚ
  clip : ℚ
deriving DecidableEq, Repr

structure TurnCacheEntry where
  requestId : String
  fixtureId : String
  createdAt : Nat
  expiresAt : Nat
  bodyHash : String
  timeline : TimelineV1
  personaId : String
  idempotencyKey : String
  miss : MissFlags
  latencyMs : LatencyMs
deriving DecidableEq, Repr

structure IdempotencyResult where
  entry : TurnCacheEntry
  reused : Bool
deriving DecidableEq, Repr

structure SessionRecord where
  id : String
  token : String
  mode : String
  createdAt : Nat
  expiresAt : Nat
deriving DecidableEq, Repr

structure TurnTranscript where
  text : String
  lang : Option String := none
deriving DecidableEq, Repr

structure TurnRequestBody where
  audio_url : Option String := none
  transcript : Option TurnTranscript := none
  transcript_hint : Option String := none
  persona_id : String
  session_id : Option String := none
deriving DecidableEq, Repr

/-! ## Runtime configuration (`src/config.ts`)

The env/CLI parsing is plumbing; the core consumes the resulting record, so
the record is a parameter of the embedded operations.  The two TTL constants
are fixed in the source. -/

def SESSION_TTL_SECONDS : Nat := 1800

def IDEMPOTENCY_TTL_SECONDS : Nat := 24 * 60 * 60

structure LatencyConfig where
  tts : ℚ
  clip : ℚ
  jitter : ℚ
deriving DecidableEq, Repr

structure MissPctConfig where
  tts : ℚ
  clip : ℚ
deriving DecidableEq, Repr

structure EmuConfig where
  pairAudioOnly : Bool := true
  latency : LatencyConfig := ⟨600, 1200, 300⟩
  missPct : MissPctConfig := ⟨0, 0⟩
  swapEnabled : Bool := true
  shareEnabled : Bool := true
  shareTtlMinutes : ℚ := 10
  sessionTtlSeconds : Nat := SESSION_TTL_SECONDS
  idempotencyTtlSeconds : Nat := IDEMPOTENCY_TTL_SECONDS
deriving DecidableEq, Repr

/-! ## Association lists

JavaScript `Map`s (and the plain-object override table) are modelled as
association lists whose keys are kept unique by `aset`.  `aerase` removes a
key wholesale, like `Map.delete`. -/

def alookup {α : Type} : List (String × α) → String → Option α
  | [], _ => none
  | (k, v) :: rest, key => if k = key then some v else alookup rest key

def aset {α : Type} : List (String × α) → String → α → List (String × α)
  | [], key, v => [(key, v)]
  | (k, w) :: rest, key, v =>
    if k = key then (key, v) :: rest else (k, w) :: aset rest key v

def aerase {α : Type} (l : List (String × α)) (key : String) :
    List (String × α) :=
  l.filter fun p => p.1 ≠ key

/-! ## Fixture registry (`src/fixtures.ts`)

The manifest/timeline file loading of `FixtureRegistry.init` is I/O plumbing;
the registry record it constructs (fixture list in manifest order, override
map with normalised keys) is the embedded state.  `fixtureMap` keyed by id
and `personaIndex` grouped by normalised persona are derived views of the
fixture list, assuming the manifest's fixture ids are distinct (a `Map`
built from the list would silently drop duplicates). -/

/-- JS `String.prototype.trim` whitespace (the ASCII members). -/
def isJsSpace (c : Char) : Bool :=
  c = ' ' || c = '\t' || c = '\n' || c = '\r' ||
  c = Char.ofNat 11 || c = Char.ofNat 12

def trimChars (l : List Char) : List Char :=
  ((l.dropWhile isJsSpace).reverse.dropWhile isJsSpace).reverse

/-- `value.trim().toLowerCase()` (ASCII case folding, which covers every key
the emulator uses). -/
def normalizeKey (value : String) : String :=
  String.mk ((trimChars value.toList).map Char.toLower)

def buildOverrideKey (personaId discriminator : String) : String :=
  normalizeKey personaId ++ "::" ++ normalizeKey discriminator

structure FixtureRegistry where
  /-- the loaded fixtures, in manifest order. -/
  fixtures : List LoadedFixture
  /-- override table: normalised `persona::discriminator` key to fixture id
  (`parseOverride` keeps only string values and normalises keys). -/
  overrides : List (String × String)
deriving DecidableEq, Repr

def getFixtureById (reg : FixtureRegistry) (fixtureId : String) :
    Option LoadedFixture :=
  alookup (reg.fixtures.map fun f => (f.id, f)) fixtureId

/-- `personaIndex.get(personaKey)` — the fixtures whose normalised persona
equals `personaKey`, in manifest order (`indexFixtures` groups them in
encounter order). -/
def personaFixtures (reg : FixtureRegistry) (personaKey : String) :
    List LoadedFixture :=
  reg.fixtures.filter fun f => normalizeKey f.persona_id = personaKey

def getAllFixtures (reg : FixtureRegistry) : List LoadedFixture :=
  reg.fixtures

def getFixturesByPersona (reg : FixtureRegistry) (personaId : String) :
    List LoadedFixture :=
  let normalized := normalizeKey personaId
  if normalized = "*" then getAllFixtures reg
  else
    let list := personaFixtures reg normalized
    if ¬ list.isEmpty then list else getAllFixtures reg

/-- `if (this.overrides[key])` — present and truthy (non-empty string). -/
def truthyLookup (overrides : List (String × String)) (key : String) :
    Option String :=
  match alookup overrides key with
  | some v => if v = "" then none else some v
  | none => none

/-- `FixtureRegistry.resolveOverride`.  The first three levels are guarded by
truthiness in the source; the last level returns the raw table value (its
truthiness is checked by the caller). -/
def resolveOverride (reg : FixtureRegistry) (personaId discriminator : String) :
    Option String :=
  match truthyLookup reg.overrides (buildOverrideKey personaId discriminator) with
  | some v => some v
  | none =>
  match truthyLookup reg.overrides (buildOverrideKey personaId "*") with
  | some v => some v
  | none =>
  match truthyLookup reg.overrides (buildOverrideKey "*" discriminator) with
  | some v => some v
  | none => alookup reg.overrides "*::*"

/-- `FixtureRegistry.selectFixture`.  `(override)` truthiness is modelled by
defaulting an absent override to `""` and testing non-emptiness. -/
def selectFixture (reg : FixtureRegistry) (personaId discriminator : String) :
    Except EmuError LoadedFixture :=
  let normalizedPersona := normalizeKey personaId
  let normalizedDiscriminator := normalizeKey discriminator
  let override := (resolveOverride reg normalizedPersona normalizedDiscriminator).getD ""
  if override ≠ "" then
    match getFixtureById reg override with
    | none => .error (.fixtureMissing ("Override fixture '" ++ override ++ "' not found"))
    | some fixture => .ok fixture
  else
    let candidates := getFixturesByPersona reg personaId
    if candidates.isEmpty then
      .error (.fixtureMissing ("No fixtures registered for persona '" ++ personaId ++ "'"))
    else selectDeterministic candidates (personaId ++ ":" ++ discriminator)

/-- Spec-side restatement of the selection contract, for the refinement
claim: consult the override table with precedence exact > (persona, `*`) >
(`*`, discriminator) > (`*`, `*`), on trimmed, lowercased keys; when no
override matches at any level, fall through to deterministic selection over
the fixtures registered for the persona, or over the full catalog when the
persona has no registered fixtures or is the wildcard persona. -/
def selectFixtureSpecSide (reg : FixtureRegistry)
    (personaId discriminator : String) : Except EmuError LoadedFixture :=
  let np := normalizeKey personaId
  let nd := normalizeKey discriminator
  let precedence := [buildOverrideKey np nd, buildOverrideKey np "*",
                     buildOverrideKey "*" nd, buildOverrideKey "*" "*"]
  match precedence.findSome? (truthyLookup reg.overrides) with
  | some fid =>
    match getFixtureById reg fid with
    | none => .error (.fixtureMissing ("Override fixture '" ++ fid ++ "' not found"))
    | some fixture => .ok fixture
  | none =>
    let registered := personaFixtures reg np
    let candidates :=
      if np = "*" ∨ registered.isEmpty then getAllFixtures reg else registered
    if candidates.isEmpty then
      .error (.fixtureMissing ("No fixtures registered for persona '" ++ personaId ++ "'"))
    else selectDeterministic candidates (personaId ++ ":" ++ discriminator)

/-! ## Toggle application (`applyFixtureToggles` in `src/app.ts`)

`cloneTimeline` is a deep copy, the identity in a pure model.  The source
mutates the cloned timeline field by field; the embedding threads the
intermediate values. -/

def estimateTimelineDurationMs (timeline : TimelineV1) : ℚ :=
  let durations :=
    (timeline.tracks.map fun track =>
      (track.offset.getD 0 + track.duration.getD 0) * 1000).filter
      fun value => decide (0 < value)
  match durations with
  | [] => 4000
  | d :: ds => ds.foldl max d

def applyFixtureToggles (cfg : EmuConfig) (now : Nat) (fixture : LoadedFixture)
    (miss : MissFlags) : TimelineV1 :=
  let timeline := fixture.timeline
  let meta0 := timeline.meta.getD {}
  let idleMs := fixture.idle_after_ms.getD
    (meta0.stage_idle_after_ms.getD (estimateTimelineDurationMs timeline))
  let meta1 := { meta0 with fixture_id := some fixture.id,
                            stage_idle_after_ms := some idleMs }
  let swapPoints1 :=
    if ¬ cfg.swapEnabled ∨ fixture.swap_enabled = some false then
      some ([] : List TimelineSwapPoint)
    else timeline.swap_points
  let shareRef1 :=
    if ¬ cfg.shareEnabled ∨ fixture.share_enabled = some false then none
    else
      match timeline.share_ref with
      | some shareRef =>
        some { shareRef with
                 ttl_s := cfg.shareTtlMinutes * 60,
                 expires_at_ms := some ((now : ℚ) + cfg.shareTtlMinutes * 60 * 1000) }
      | none => none
  let tracks2 :=
    if miss.clip then timeline.tracks.filter (fun track => track.type ≠ "video")
    else timeline.tracks
  let swapPoints2 :=
    if miss.clip then some ([] : List TimelineSwapPoint) else swapPoints1
  let meta2 := if miss.clip then { meta1 with miss_clip := some true } else meta1
  let meta3 := if miss.tts then { meta2 with miss_tts := some true } else meta2
  let meta4 :=
    if cfg.pairAudioOnly then { meta3 with pair_audio_only := some true }
    else meta3
  { timeline with tracks := tracks2, swap_points := swapPoints2,
                  share_ref := shareRef1, meta := some meta4 }

/-! ## Session store (`src/sessionStore.ts`)

The three `Map`s of the class are the state; `Date.now()` is an explicit
`now` parameter.  Thrown errors become `Except.error` results paired with
the store as mutated up to the throw. -/

structure SessionStore where
  sessions : List (String × SessionRecord)
  idempotency : List (String × List (String × TurnCacheEntry))
  pendingTurns : List (String × List TurnCacheEntry)
deriving DecidableEq, Repr

def isExpired (timestamp now : Nat) : Bool :=
  timestamp ≤ now

def createSession (cfg : EmuConfig) (st : SessionStore) (now : Nat)
    (id token mode : String) : SessionRecord × SessionStore :=
  let session : SessionRecord :=
    { id, token, mode, createdAt := now,
      expiresAt := now + cfg.sessionTtlSeconds * 1000 }
  (session, { st with sessions := aset st.sessions session.id session })

/-- `SessionStore.getSession`: lazy eviction — an expired record is purged
together with its idempotency partition and pending queue before reporting
the session absent. -/
def getSession (st : SessionStore) (now : Nat) (sessionId : String) :
    Option SessionRecord × SessionStore :=
  match alookup st.sessions sessionId with
  | none => (none, st)
  | some session =>
    if isExpired session.expiresAt now then
      (none,
       { sessions := aerase st.sessions sessionId,
         idempotency := aerase st.idempotency sessionId,
         pendingTurns := aerase st.pendingTurns sessionId })
    else (some session, st)

/-- The entry data the turn handler passes to `putTurn`
(`Omit<TurnCacheEntry, "idempotencyKey" | "createdAt" | "expiresAt" | "bodyHash">`). -/
structure TurnEntryData where
  requestId : String
  fixtureId : String
  timeline : TimelineV1
  personaId : String
  miss : MissFlags
  latencyMs : LatencyMs
deriving DecidableEq, Repr

def mkTurnCacheEntry (entryData : TurnEntryData) (idempotencyKey bodyHash : String)
    (createdAt expiresAt : Nat) : TurnCacheEntry :=
  { requestId := entryData.requestId, fixtureId := entryData.fixtureId,
    timeline := entryData.timeline, personaId := entryData.personaId,
    miss := entryData.miss, latencyMs := entryData.latencyMs,
    idempotencyKey, bodyHash, createdAt, expiresAt }

/-- `SessionStore.putTurn`.  `bodyStr` is `JSON.stringify(body ?? {})`. -/
def putTurn (cfg : EmuConfig) (st : SessionStore) (now : Nat)
    (sessionId idempotencyKey bodyStr : String) (entryData : TurnEntryData) :
    Except EmuError IdempotencyResult × SessionStore :=
  let bodyHash := hashString bodyStr
  match getSession st now sessionId with
  | (none, st1) => (.error .sessionNotFound, st1)
  | (some _, st1) =>
    let st2 :=
      match alookup st1.idempotency sessionId with
      | none => { st1 with idempotency := aset st1.idempotency sessionId [] }
      | some _ => st1
    let sessionCache := (alookup st2.idempotency sessionId).getD []
    match alookup sessionCache idempotencyKey with
    | some cached =>
      if cached.bodyHash ≠ bodyHash then (.error .idempotencyBodyMismatch, st2)
      else (.ok ⟨cached, true⟩, st2)
    | none =>
      let entry := mkTurnCacheEntry entryData idempotencyKey bodyHash now
        (now + cfg.idempotencyTtlSeconds * 1000)
      (.ok ⟨entry, false⟩,
       { st2 with idempotency :=
           (aset st2.idempotency sessionId (aset sessionCache idempotencyKey entry)) })

def enqueueTurn (st : SessionStore) (sessionId : String)
    (entry : TurnCacheEntry) : SessionStore :=
  let queue := (alookup st.pendingTurns sessionId).getD []
  { st with pendingTurns := aset st.pendingTurns sessionId (queue ++ [entry]) }

def takePendingTurns (st : SessionStore) (sessionId : String) :
    List TurnCacheEntry × SessionStore :=
  let queue := (alookup st.pendingTurns sessionId).getD []
  (queue, { st with pendingTurns := aset st.pendingTurns sessionId [] })

/-- `SessionStore.cleanupExpired`: drop every expired session together with
its idempotency partition and pending queue, then drop every expired cache
entry (and any partition left empty).  The source iterates the `Map`s and
deletes by key; with unique keys that is the filter below. -/
def cleanupExpired (st : SessionStore) (now : Nat) : SessionStore :=
  let deadIds :=
    (st.sessions.filter fun p => isExpired p.2.expiresAt now).map Prod.fst
  let sessions1 := st.sessions.filter fun p => !(isExpired p.2.expiresAt now)
  let idem1 := st.idempotency.filter fun p => !(deadIds.contains p.1)
  let pend1 := st.pendingTurns.filter fun p => !(deadIds.contains p.1)
  let idem2 :=
    (idem1.map fun p =>
      (p.1, p.2.filter fun q => !(isExpired q.2.expiresAt now))).filter
      fun p => !(p.2.isEmpty)
  { sessions := sessions1, idempotency := idem2, pendingTurns := pend1 }

/-! ## SSE hub delivery (`SseHub.dispatchTurn` in `src/sse.ts`)

For one open subscriber and one turn entry, `dispatchTurn` performs some
immediate writes and schedules three timers.  The observable outcome is the
list of (delay-from-acceptance, message) pairs below, immediate writes
first in code order.  The message vocabulary covers every event name the
hub can emit (`addClient` emits `sse_backoff`, the heartbeat interval emits
`heartbeat`, and `turn_started` is the lifecycle event named by the
repository documentation). -/

structure EnvelopeTrack where
  kind : String
  url : String
  mime_type : String
deriving DecidableEq, Repr

structure EnvelopeSwapPoint where
  t_ms : ℤ
deriving DecidableEq, Repr

structure TimelineEnvelope where
  turn_id : String
  session_id : String
  swap_points : List EnvelopeSwapPoint
  tracks : List EnvelopeTrack
  sources_badge : Bool
  share_ref : Option TimelineShareRef
deriving DecidableEq, Repr

inductive SseMessage where
  | missEvent (kind : String) (requestId : String)
  | backoffEvent (sequenceMs : List ℚ)
  | heartbeatEvent
  | turnStartedEvent (requestId : String)
  | stopIdleMessage (reason : String)
  | timelineMessage (envelope : TimelineEnvelope)
  | stageHintsMessage (swapPoints : List TimelineSwapPoint)
  | playIdleMessage (afterMs : ℚ)
deriving DecidableEq, Repr

def isHttpUrl (s : String) : Bool :=
  let lower := s.toLower
  lower.startsWith "http://" || lower.startsWith "https://"

/-- The per-track mapping inside the `timeline` delivery callback. -/
def mapEnvelopeTrack (track : TimelineTrack) : EnvelopeTrack :=
  let raw := (track.source_url.orElse fun _ => track.url).getD ""
  let url :=
    if ¬ isHttpUrl raw then
      if raw.startsWith "/media/" then raw.drop 7
      else if raw.startsWith "/" then raw.drop 1
      else raw
    else raw
  let kind :=
    if track.type = "audio" then "audio"
    else if track.type = "video" then "video"
    else track.type
  let mime :=
    if kind = "audio" then "audio/wav"
    else if kind = "video" then "video/mp4"
    else if kind = "captions" then "text/vtt"
    else "application/octet-stream"
  { kind, url, mime_type := mime }

def mkTimelineEnvelope (sessionId : String) (entry : TurnCacheEntry) :
    TimelineEnvelope :=
  { turn_id := entry.requestId,
    session_id := sessionId,
    swap_points := (entry.timeline.swap_points.getD []).map
      fun sp => ⟨round (sp.at * 1000)⟩,
    tracks := entry.timeline.tracks.map mapEnvelopeTrack,
    sources_badge := entry.timeline.sources_badge.getD false,
    share_ref := entry.timeline.share_ref }

def computeTimelineDuration (entry : TurnCacheEntry) : ℚ :=
  let durations :=
    (entry.timeline.tracks.map fun track =>
      (track.offset.getD 0 + track.duration.getD 0) * 1000).filter
      fun value => decide (0 < value)
  match durations with
  | [] =>
    match entry.timeline.share_ref with
    | some shareRef => if shareRef.ttl_s ≠ 0 then shareRef.ttl_s * 1000 else 4000
    | none => 4000
  | d :: ds => ds.foldl max d

def idleAfterOf (entry : TurnCacheEntry) : ℚ :=
  match entry.timeline.meta with
  | some meta =>
    match meta.stage_idle_after_ms with
    | some ms => ms
    | none => computeTimelineDuration entry
  | none => computeTimelineDuration entry

/-- `SseHub.dispatchTurn` for an open subscriber of `sessionId`: the
(delay, message) schedule it produces for one turn entry. -/
def dispatchSchedule (sessionId : String) (entry : TurnCacheEntry) :
    List (ℚ × SseMessage) :=
  (if entry.miss.tts then [((0 : ℚ), .missEvent "tts" entry.requestId)] else []) ++
  (if entry.miss.clip then [((0 : ℚ), .missEvent "clip" entry.requestId)] else []) ++
  [((0 : ℚ), .stopIdleMessage "new_turn")] ++
  [(entry.latencyMs.audio, .timelineMessage (mkTimelineEnvelope sessionId entry))] ++
  (match entry.timeline.swap_points with
   | some swapPoints =>
     if ¬ swapPoints.isEmpty then
       [(entry.latencyMs.clip, .stageHintsMessage swapPoints)]
     else []
   | none => []) ++
  [(entry.latencyMs.audio + idleAfterOf entry, .playIdleMessage (idleAfterOf entry))]

def isTurnStarted : SseMessage → Bool
  | .turnStartedEvent _ => true
  | _ => false

/-- A human-readable tag for each hub message, for stating schedules. -/
def sseTag : SseMessage → String
  | .missEvent kind _ => "miss:" ++ kind
  | .backoffEvent _ => "sse_backoff"
  | .heartbeatEvent => "heartbeat"
  | .turnStartedEvent _ => "turn_started"
  | .stopIdleMessage _ => "stage.stop_idle"
  | .timelineMessage _ => "timeline"
  | .stageHintsMessage _ => "stage_hints"
  | .playIdleMessage _ => "stage.play_idle"

/-! ## The `POST /v1/session/turn` handler (`createApp` in `src/app.ts`)

HTTP error responses map to `HttpError`; fire-and-forget observability and
scheduling actions of the acceptance path (`turnCounter.inc`, the enqueue,
the share-expiry timer, the broadcast) are recorded in `TurnEffects` so the
"exactly once" claims can be stated.  `Math.random()`/`randomUUID()` draws
are the explicit `TurnRandomness` record. -/

inductive HttpError where
  /-- 400 `EMU_BAD_REQUEST` -/
  | badRequest (msg : String)
  /-- 404 `EMU_SESSION_UNKNOWN` -/
  | sessionUnknown
  /-- 503 `EMU_FIXTURE_MISSING` -/
  | fixtureMissing (msg : String)
  /-- 409 `EMU_IDEMPOTENCY_REPLAY` -/
  | idempotencyReplay
  /-- 500 `EMU_INTERNAL_ERROR` -/
  | internalError (msg : String)
deriving DecidableEq, Repr

structure TurnResponseBody where
  request_id : String
  fixture_id : String
  pair_audio_only : Bool
deriving DecidableEq, Repr

structure TurnEffects where
  turnCounterInc : Bool
  enqueued : Bool
  shareIssued : Bool
  broadcast : List TurnCacheEntry
deriving DecidableEq, Repr

def noEffects : TurnEffects := ⟨false, false, false, []⟩

structure TurnRandomness where
  sessionUuid : String
  requestUuid : String
  missTtsRoll : ℚ
  missClipRoll : ℚ
  audioJitterRoll : ℚ
  clipJitterRoll : ℚ
deriving DecidableEq, Repr

def jsonString (s : String) : String := "\x22" ++ s ++ "\x22"

/-- `JSON.stringify` of the zod-parsed turn payload: the schema's fields in
declaration order, `undefined` (absent) fields omitted.  (String escaping is
immaterial here: only equality of serialisations feeds the digest.) -/
def stringifyTurnBody (body : TurnRequestBody) : String :=
  let fields :=
    (match body.audio_url with
     | some u => [jsonString "audio_url" ++ ":" ++ jsonString u]
     | none => []) ++
    (match body.transcript with
     | some t =>
       [jsonString "transcript" ++ ":\x7b" ++ jsonString "text" ++ ":" ++
        jsonString t.text ++
        (match t.lang with
         | some lang => "," ++ jsonString "lang" ++ ":" ++ jsonString lang
         | none => "") ++ "\x7d"]
     | none => []) ++
    (match body.transcript_hint with
     | some h => [jsonString "transcript_hint" ++ ":" ++ jsonString h]
     | none => []) ++
    [jsonString "persona_id" ++ ":" ++ jsonString body.persona_id] ++
    (match body.session_id with
     | some sid => [jsonString "session_id" ++ ":" ++ jsonString sid]
     | none => [])
  "\x7b" ++ String.intercalate "," fields ++ "\x7d"

/-- The acceptance tail of the turn handler (`app.ts` lines 264–290): call
`putTurn`, and only on a fresh (non-reused) entry increment the accepted-turn
counter, enqueue the turn, arm the share bookkeeping, and — when subscribers
exist — drain the pending queue and broadcast it. -/
def handleTurnCore (cfg : EmuConfig) (st : SessionStore) (now : Nat)
    (sessionId idempotencyKey bodyStr : String) (entryData : TurnEntryData)
    (hasClients : Bool) :
    Except EmuError IdempotencyResult × SessionStore × TurnEffects :=
  match putTurn cfg st now sessionId idempotencyKey bodyStr entryData with
  | (.error e, st1) => (.error e, st1, noEffects)
  | (.ok result, st1) =>
    if result.reused then (.ok result, st1, noEffects)
    else
      let st2 := enqueueTurn st1 sessionId result.entry
      let shareIssued := result.entry.timeline.share_ref.isSome
      if hasClients then
        let (pending, st3) := takePendingTurns st2 sessionId
        (.ok result, st3, ⟨true, true, shareIssued, pending⟩)
      else
        (.ok result, st2, ⟨true, true, shareIssued, []⟩)

/-- The full `POST /v1/session/turn` handler.  Note the source derives
`sessionId` from a freshly generated UUID (`sess_${randomUUID()}`) and never
consults the caller-supplied `session_id`/header (`extractSessionId` is
dead code in this route). -/
def handleTurn (cfg : EmuConfig) (reg : FixtureRegistry) (st : SessionStore)
    (now : Nat) (idemKeyHeader : Option String) (body : TurnRequestBody)
    (rnd : TurnRandomness) (hasClients : Bool) :
    Except HttpError TurnResponseBody × SessionStore × TurnEffects :=
  match idemKeyHeader with
  | none => (.error (.badRequest "Idempotency-Key header is required"), st, noEffects)
  | some idempotencyKey =>
    if ¬ (body.audio_url.isSome || body.transcript.isSome) then
      (.error (.badRequest "audio_url or transcript is required"), st, noEffects)
    else
      let sessionId := "sess_" ++ rnd.sessionUuid
      match getSession st now sessionId with
      | (none, st1) => (.error .sessionUnknown, st1, noEffects)
      | (some _, st1) =>
        let discriminator :=
          (((body.transcript.map TurnTranscript.text).orElse
            fun _ => body.audio_url).orElse
            fun _ => body.transcript_hint).getD body.persona_id
        match selectFixture reg body.persona_id discriminator with
        | .error e =>
          (.error (.fixtureMissing (match e with
            | .fixtureMissing m => m
            | .invalidArgument m => m
            | _ => "")), st1, noEffects)
        | .ok fixture =>
          let miss : MissFlags :=
            ⟨percentToHit cfg.missPct.tts rnd.missTtsRoll,
             percentToHit cfg.missPct.clip rnd.missClipRoll⟩
          let timeline := applyFixtureToggles cfg now fixture miss
          let requestId := "req_" ++ rnd.requestUuid
          let entryData : TurnEntryData :=
            { requestId, fixtureId := fixture.id, timeline,
              personaId := body.persona_id, miss,
              latencyMs :=
                ⟨withJitter cfg.latency.tts cfg.latency.jitter rnd.audioJitterRoll,
                 withJitter cfg.latency.clip cfg.latency.jitter rnd.clipJitterRoll⟩ }
          match handleTurnCore cfg st1 now sessionId idempotencyKey
              (stringifyTurnBody body) entryData hasClients with
          | (.error .idempotencyBodyMismatch, st2, effects) =>
            (.error .idempotencyReplay, st2, effects)
          | (.error _, st2, effects) =>
            (.error (.internalError "SESSION_NOT_FOUND"), st2, effects)
          | (.ok result, st2, effects) =>
            (.ok { request_id := result.entry.requestId,
                   fixture_id := result.entry.fixtureId,
                   pair_audio_only := cfg.pairAudioOnly }, st2, effects)

/-! ## Association-list lemmas -/

theorem alookup_aset_self {α : Type} (l : List (String × α)) (k : String)
    (v : α) : alookup (aset l k v) k = some v := by
  induction l with
  | nil => simp [aset, alookup]
  | cons p rest ih =>
    obtain ⟨pk, pv⟩ := p
    by_cases h : pk = k
    · simp [aset, h, alookup]
    · simp [aset, h, alookup, ih]

theorem alookup_aset_ne {α : Type} (l : List (String × α)) (k k' : String)
    (v : α) (hne : k' ≠ k) : alookup (aset l k v) k' = alookup l k' := by
  induction l with
  | nil => simp [aset, alookup, Ne.symm hne]
  | cons p rest ih =>
    obtain ⟨pk, pv⟩ := p
    by_cases h : pk = k
    · subst h
      simp [aset, alookup, Ne.symm hne]
    · simp [aset, h, alookup, ih]

theorem aset_aset {α : Type} (l : List (String × α)) (k : String) (v w : α) :
    aset (aset l k v) k w = aset l k w := by
  induction l with
  | nil => simp [aset]
  | cons p rest ih =>
    obtain ⟨pk, pv⟩ := p
    by_cases h : pk = k
    · simp [aset, h]
    · simp [aset, h, ih]

theorem alookup_mem {α : Type} {l : List (String × α)} {k : String} {v : α}
    (h : alookup l k = some v) : (k, v) ∈ l := by
  induction l with
  | nil => simp [alookup] at h
  | cons p rest ih =>
    obtain ⟨pk, pv⟩ := p
    by_cases hp : pk = k
    · subst hp
      simp [alookup] at h
      subst h
      exact List.mem_cons_self _ _
    · simp [alookup, hp] at h
      exact List.mem_cons_of_mem _ (ih h)

theorem alookup_eq_none {α : Type} {l : List (String × α)} {k : String}
    (h : ∀ v, (k, v) ∉ l) : alookup l k = none := by
  induction l with
  | nil => simp [alookup]
  | cons p rest ih =>
    obtain ⟨pk, pv⟩ := p
    by_cases hp : pk = k
    · subst hp
      exact absurd (List.mem_cons_self _ _) (h pv)
    · simp [alookup, hp]
      exact ih fun v hv => h v (List.mem_cons_of_mem _ hv)

theorem alookup_aerase_self {α : Type} (l : List (String × α)) (k : String) :
    alookup (aerase l k) k = none := by
  apply alookup_eq_none
  intro v hv
  have := List.of_mem_filter hv
  simp at this

theorem nodup_keys_unique {α : Type} {l : List (String × α)} {k : String}
    {a b : α} (hnd : (l.map Prod.fst).Nodup) (ha : (k, a) ∈ l)
    (hb : (k, b) ∈ l) : a = b := by
  induction l with
  | nil => simp at ha
  | cons p rest ih =>
    obtain ⟨pk, pv⟩ := p
    simp only [List.map_cons, List.nodup_cons] at hnd
    rcases List.mem_cons.mp ha with h1 | h1 <;>
      rcases List.mem_cons.mp hb with h2 | h2
    · obtain ⟨e1, e2⟩ := Prod.ext_iff.mp h1
      obtain ⟨f1, f2⟩ := Prod.ext_iff.mp h2
      simp only at e2 f2
      rw [e2, f2]
    · obtain ⟨e1, e2⟩ := Prod.ext_iff.mp h1
      simp only at e1
      subst e1
      exact absurd (List.mem_map_of_mem Prod.fst h2) (by simpa using hnd.1)
    · obtain ⟨f1, f2⟩ := Prod.ext_iff.mp h2
      simp only at f1
      subst f1
      exact absurd (List.mem_map_of_mem Prod.fst h1) (by simpa using hnd.1)
    · exact ih hnd.2 h1 h2

/-! ## Dot-collapsing lemmas (for `sanitizeMediaPath`) -/

theorem collapseDots_cons :
    ∀ (n : Nat) (c : Char) (l : List Char), l.length ≤ n →
      ∃ ys, collapseDots (c :: l) = c :: ys
  | _, c, [], _ => ⟨[], by simp [collapseDots]⟩
  | 0, _, _ :: _, h => by simp at h
  | n + 1, c, d :: rest, h => by
    by_cases hcd : c = '.' ∧ d = '.'
    · obtain ⟨ys, hys⟩ :=
        collapseDots_cons n '.' rest (Nat.le_of_succ_le_succ (by simpa using h))
      exact ⟨ys, by rw [collapseDots, if_pos hcd, hys, hcd.1]⟩
    · exact ⟨collapseDots (d :: rest), by rw [collapseDots, if_neg hcd]⟩

theorem hasDoubleDot_collapseDots :
    ∀ (n : Nat) (l : List Char), l.length ≤ n →
      hasDoubleDot (collapseDots l) = false
  | _, [], _ => by simp [collapseDots, hasDoubleDot]
  | _, [c], _ => by simp [collapseDots, hasDoubleDot]
  | 0, _ :: _ :: _, h => by simp at h
  | n + 1, c :: d :: rest, h => by
    by_cases hcd : c = '.' ∧ d = '.'
    · rw [collapseDots, if_pos hcd]
      exact hasDoubleDot_collapseDots n ('.' :: rest)
        (Nat.le_of_succ_le_succ (by simpa using h))
    · rw [collapseDots, if_neg hcd]
      obtain ⟨ys, hys⟩ := collapseDots_cons (rest.length) d rest (le_refl _)
      rw [hys, hasDoubleDot]
      have htail : hasDoubleDot (d :: ys) = false := by
        rw [← hys]
        exact hasDoubleDot_collapseDots n (d :: rest)
          (Nat.le_of_succ_le_succ (by simpa using h))
      rw [htail]
      simp only [Bool.or_false]
      by_cases hc : c = '.'
      · by_cases hd : d = '.'
        · exact absurd ⟨hc, hd⟩ hcd
        · simp [hd]
      · simp [hc]

/-! ## C10 — `sanitizeMediaPath` is total; its error branch is unreachable -/

/-- C10: for every input string, `sanitizeMediaPath` succeeds with the
normalised path — the `INVALID_MEDIA_PATH` branch is unreachable, because
after every run of two or more dots has been collapsed to one dot the result
can never contain `".."`; traversal sequences are silently collapsed, not
rejected. -/
theorem C10_sanitize_total (input : String) :
    sanitizeMediaPath input = .ok (String.mk (normalizeMediaChars input.toList)) := by
  have h : hasDoubleDot (normalizeMediaChars input.toList) = false := by
    unfold normalizeMediaChars
    exact hasDoubleDot_collapseDots _ _ (le_refl _)
  simp [sanitizeMediaPath, String.toList] at h ⊢
  simp [h]

/-! ## C6 — deterministic selection -/

/-- C6: `selectDeterministic` fails with `InvalidArgument` on an empty
candidate list; on a non-empty list it returns the element at index
`parseInt(sha256hex(key)[0..8], 16) % length`, and identical inputs always
yield the identical element. -/
theorem C6_deterministic_selection {α : Type} (items : List α) (key : String) :
    (items = [] →
      selectDeterministic items key =
        .error (.invalidArgument "Cannot select from empty list")) ∧
    (∀ _ : items ≠ [],
      ∃ hlt : parseHexNat ((hashString key).take 8) % items.length < items.length,
        selectDeterministic items key =
          .ok (items.get ⟨parseHexNat ((hashString key).take 8) % items.length, hlt⟩)) ∧
    selectDeterministic items key = selectDeterministic items key := by
  refine ⟨fun h => ?_, fun h => ?_, rfl⟩
  · subst h
    simp [selectDeterministic]
  · have hlen : items.length ≠ 0 := by
      simpa using fun hh => h (List.eq_nil_of_length_eq_zero hh)
    refine ⟨Nat.mod_lt _ (Nat.pos_of_ne_zero hlen), ?_⟩
    simp [selectDeterministic, hlen]

theorem C6_deterministic_selection_witness :
    (["a", "b", "c"] : List String) ≠ [] ∧
    ∃ hlt : parseHexNat ((hashString "key").take 8) %
        (["a", "b", "c"] : List String).length <
        (["a", "b", "c"] : List String).length,
      selectDeterministic ["a", "b", "c"] "key" =
        .ok ((["a", "b", "c"] : List String).get
          ⟨parseHexNat ((hashString "key").take 8) %
            (["a", "b", "c"] : List String).length, hlt⟩) :=
  ⟨by decide, (C6_deterministic_selection ["a", "b", "c"] "key").2.1 (by decide)⟩

/-! ## C9 — jitter bound -/

/-- C9 counterexample: the claimed bound
`withJitter(base, jitter) ∈ [max(0, base - jitter), base + jitter]` fails as
stated "for every base and jitter": at `base = -1, jitter = 0` the result 0
exceeds the upper bound `-1`, and at `base = 3, jitter = 0.7, draw 0.99` the
result `4.3` exceeds the upper bound `3.7`. -/
theorem C9_counterexample :
    ¬ (max 0 ((-1 : ℚ) - 0) ≤ withJitter (-1) 0 0 ∧
       withJitter (-1) 0 0 ≤ (-1) + 0) ∧
    ¬ (withJitter 3 (7 / 10) (99 / 100) ≤ 3 + 7 / 10) := by
  constructor
  · intro hcontra
    have : withJitter (-1) 0 0 = 0 := by
      unfold withJitter
      norm_num
    rw [this] at hcontra
    exact absurd hcontra.2 (by norm_num)
  · intro hcontra
    have : withJitter 3 (7 / 10) (99 / 100) = 43 / 10 := by
      unfold withJitter
      norm_num
    rw [this] at hcontra
    exact absurd hcontra (by norm_num)

/-- C9 amended: for every base ≥ 0, every integer jitter ≥ 0 (the
configuration clamps `EMU_LATENCY_JITTER_MS` to a non-negative value and env
values are integral in practice), and every draw `r ∈ [0, 1)`,
`withJitter(base, jitter)` lies in `[max(0, base - jitter), base + jitter]`. -/
theorem C9_jitter_bound_amended (base : ℚ) (jitter : ℕ) (r : ℚ)
    (hbase : 0 ≤ base) (hr0 : 0 ≤ r) (hr1 : r < 1) :
    max 0 (base - (jitter : ℚ)) ≤ withJitter base (jitter : ℚ) r ∧
    withJitter base (jitter : ℚ) r ≤ base + (jitter : ℚ) := by
  by_cases hj : (jitter : ℚ) ≤ 0
  · have hj0 : (jitter : ℚ) = 0 := le_antisymm hj (by positivity)
    have he : withJitter base (jitter : ℚ) r = max 0 base := by
      unfold withJitter
      rw [if_pos hj]
    rw [he, hj0, sub_zero, add_zero]
    exact ⟨le_refl _, by simp [max_le_iff, hbase]⟩
  · have he : withJitter base (jitter : ℚ) r =
        max 0 (base + ((⌊r * ((jitter : ℚ) * 2 + 1)⌋ : ℚ) - (jitter : ℚ))) := by
      unfold withJitter
      rw [if_neg hj]
    have hxpos : (0 : ℚ) ≤ r * ((jitter : ℚ) * 2 + 1) := by positivity
    have hf0 : (0 : ℤ) ≤ ⌊r * ((jitter : ℚ) * 2 + 1)⌋ := Int.floor_nonneg.mpr hxpos
    have hfu : ⌊r * ((jitter : ℚ) * 2 + 1)⌋ ≤ 2 * (jitter : ℤ) := by
      have hxlt : r * ((jitter : ℚ) * 2 + 1) < ((2 * (jitter : ℤ) + 1 : ℤ) : ℚ) := by
        push_cast
        nlinarith [lt_of_not_le hj]
      have := Int.floor_lt.mpr hxlt
      omega
    have hfq0 : (0 : ℚ) ≤ (⌊r * ((jitter : ℚ) * 2 + 1)⌋ : ℚ) := by exact_mod_cast hf0
    have hfqu : (⌊r * ((jitter : ℚ) * 2 + 1)⌋ : ℚ) ≤ (jitter : ℚ) * 2 := by
      have hcast : ((⌊r * ((jitter : ℚ) * 2 + 1)⌋ : ℤ) : ℚ) ≤
          ((2 * (jitter : ℤ) : ℤ) : ℚ) := by exact_mod_cast hfu
      push_cast at hcast
      linarith
    rw [he]
    constructor
    · apply max_le_max (le_refl (0 : ℚ))
      linarith
    · rw [max_le_iff]
      exact ⟨by positivity, by linarith⟩

/-! ## C7 — override precedence and fallthrough -/

theorem truthyLookup_ne_empty {ovs : List (String × String)} {k v : String}
    (h : truthyLookup ovs k = some v) : v ≠ "" := by
  unfold truthyLookup at h
  cases hl : alookup ovs k with
  | none => simp [hl] at h
  | some w =>
    rw [hl] at h
    by_cases hw : w = ""
    · simp [hw] at h
    · simp [hw] at h
      exact h ▸ hw

theorem getFixturesByPersona_eq (reg : FixtureRegistry) (personaId : String) :
    getFixturesByPersona reg personaId =
      (if normalizeKey personaId = "*" ∨
          (personaFixtures reg (normalizeKey personaId)).isEmpty then
        getAllFixtures reg
      else personaFixtures reg (normalizeKey personaId)) := by
  unfold getFixturesByPersona
  by_cases h1 : normalizeKey personaId = "*"
  · simp [h1]
  · by_cases h2 : (personaFixtures reg (normalizeKey personaId)).isEmpty
    · simp [h1, h2]
    · simp [h1, h2]

/-- C7: `selectFixture` coincides with the spec-side selection contract
(override precedence exact > (persona, `*`) > (`*`, discriminator) >
(`*`, `*`) on trimmed lowercased keys, then deterministic selection over the
persona's registered fixtures, or the full catalog for an unregistered or
wildcard persona) on every registry whose override table maps to non-empty
fixture ids (an empty-string mapping is skipped by the code's truthiness
test, which the contract leaves unspecified). -/
theorem C7_override_precedence (reg : FixtureRegistry)
    (personaId discriminator : String)
    (hov : ∀ p ∈ reg.overrides, p.2 ≠ "") :
    selectFixture reg personaId discriminator =
      selectFixtureSpecSide reg personaId discriminator := by
  have hgetD : ∀ k, alookup reg.overrides k = truthyLookup reg.overrides k := by
    intro k
    unfold truthyLookup
    cases hl : alookup reg.overrides k with
    | none => rfl
    | some v =>
      have hv : v ≠ "" := hov (k, v) (alookup_mem hl)
      simp [hv]
  have hkey4 : buildOverrideKey "*" "*" = "*::*" := by decide
  have hres : resolveOverride reg (normalizeKey personaId)
        (normalizeKey discriminator) =
      [buildOverrideKey (normalizeKey personaId) (normalizeKey discriminator),
       buildOverrideKey (normalizeKey personaId) "*",
       buildOverrideKey "*" (normalizeKey discriminator),
       buildOverrideKey "*" "*"].findSome? (truthyLookup reg.overrides) := by
    unfold resolveOverride
    rw [← hkey4, hgetD]
    cases h1 : truthyLookup reg.overrides
        (buildOverrideKey (normalizeKey personaId) (normalizeKey discriminator)) with
    | some v => simp [List.findSome?_cons, h1]
    | none =>
      cases h2 : truthyLookup reg.overrides
          (buildOverrideKey (normalizeKey personaId) "*") with
      | some v => simp [List.findSome?_cons, h1, h2]
      | none =>
        cases h3 : truthyLookup reg.overrides
            (buildOverrideKey "*" (normalizeKey discriminator)) with
        | some v => simp [List.findSome?_cons, h1, h2, h3]
        | none =>
          cases h4 : truthyLookup reg.overrides (buildOverrideKey "*" "*") with
          | some v => simp [List.findSome?_cons, h1, h2, h3, h4]
          | none => simp [List.findSome?_cons, h1, h2, h3, h4]
  unfold selectFixture selectFixtureSpecSide
  dsimp only
  rw [hres]
  cases hfind : [buildOverrideKey (normalizeKey personaId) (normalizeKey discriminator),
       buildOverrideKey (normalizeKey personaId) "*",
       buildOverrideKey "*" (normalizeKey discriminator),
       buildOverrideKey "*" "*"].findSome? (truthyLookup reg.overrides) with
  | some v =>
    obtain ⟨k, _, hk⟩ := List.exists_of_findSome?_eq_some hfind
    have hv : v ≠ "" := truthyLookup_ne_empty hk
    simp [hv]
  | none =>
    rw [getFixturesByPersona_eq]
    simp

def c7Fixture : LoadedFixture :=
  { id := "fx_virtue", persona_id := "socrates",
    timeline := { tracks := [] } }

def c7Reg : FixtureRegistry :=
  { fixtures := [c7Fixture],
    overrides := [("socrates::virtue", "fx_virtue")] }

theorem C7_override_precedence_witness :
    (∀ p ∈ c7Reg.overrides, p.2 ≠ "") ∧
    selectFixture c7Reg "Socrates " "Virtue" =
      selectFixtureSpecSide c7Reg "Socrates " "Virtue" :=
  ⟨by decide,
   C7_override_precedence c7Reg "Socrates " "Virtue" (by decide)⟩

/-! ## Session-store lemmas -/

theorem getSession_valid (st : SessionStore) (now : Nat) (sid : String)
    (s : SessionRecord) (hsess : alookup st.sessions sid = some s)
    (hvalid : now < s.expiresAt) : getSession st now sid = (some s, st) := by
  unfold getSession
  rw [hsess]
  have hx : isExpired s.expiresAt now = false := by
    simp [isExpired]
    omega
  simp [hx]

/-- A fresh `(session, key)` pair materialises exactly the entry built from
the candidate data, the key, the body digest and the timestamps, and stores
it in the session's partition. -/
theorem putTurn_fresh (cfg : EmuConfig) (st : SessionStore) (now : Nat)
    (sid key bodyStr : String) (d : TurnEntryData) (s : SessionRecord)
    (hsess : alookup st.sessions sid = some s) (hvalid : now < s.expiresAt)
    (hfresh : alookup ((alookup st.idempotency sid).getD []) key = none) :
    putTurn cfg st now sid key bodyStr d =
      (.ok ⟨mkTurnCacheEntry d key (hashString bodyStr) now
              (now + cfg.idempotencyTtlSeconds * 1000), false⟩,
       { st with idempotency := (aset st.idempotency sid
           (aset ((alookup st.idempotency sid).getD []) key
             (mkTurnCacheEntry d key (hashString bodyStr) now
               (now + cfg.idempotencyTtlSeconds * 1000)))) }) := by
  unfold putTurn
  rw [getSession_valid st now sid s hsess hvalid]
  cases hpart : alookup st.idempotency sid with
  | none =>
    rw [hpart] at hfresh
    simp only [hpart, Option.getD_none, Option.getD_some, alookup_aset_self]
    simp only [alookup] at hfresh ⊢
    rw [aset_aset]
  | some part =>
    rw [hpart] at hfresh
    simp only [hpart, Option.getD_some] at hfresh ⊢
    rw [hfresh]

/-- Replaying an existing key with the stored digest returns the cached
entry with `reused = true` and leaves the whole store unchanged. -/
theorem putTurn_replay (cfg : EmuConfig) (st : SessionStore) (now : Nat)
    (sid key bodyStr : String) (d : TurnEntryData) (s : SessionRecord)
    (part : List (String × TurnCacheEntry)) (cached : TurnCacheEntry)
    (hsess : alookup st.sessions sid = some s) (hvalid : now < s.expiresAt)
    (hpart : alookup st.idempotency sid = some part)
    (hcached : alookup part key = some cached)
    (hhash : cached.bodyHash = hashString bodyStr) :
    putTurn cfg st now sid key bodyStr d = (.ok ⟨cached, true⟩, st) := by
  unfold putTurn
  rw [getSession_valid st now sid s hsess hvalid]
  simp only [hpart, Option.getD_some, hcached]
  simp [hhash]

/-! ## C2 — idempotency conflict is atomic -/

/-- C2: for a valid session whose partition already holds an entry under the
key, submitting a body whose digest differs from the stored digest fails
with the idempotency-conflict error and returns the store **unchanged** —
no entry is created, the stored entry and the rest of the cache are intact. -/
theorem C2_conflict_atomicity (cfg : EmuConfig) (st : SessionStore) (now : Nat)
    (sid key bodyStr : String) (d : TurnEntryData) (s : SessionRecord)
    (part : List (String × TurnCacheEntry)) (cached : TurnCacheEntry)
    (hsess : alookup st.sessions sid = some s) (hvalid : now < s.expiresAt)
    (hpart : alookup st.idempotency sid = some part)
    (hcached : alookup part key = some cached)
    (hne : cached.bodyHash ≠ hashString bodyStr) :
    putTurn cfg st now sid key bodyStr d =
      (.error .idempotencyBodyMismatch, st) := by
  unfold putTurn
  rw [getSession_valid st now sid s hsess hvalid]
  simp only [hpart, Option.getD_some, hcached]
  simp [hne]

def c2Session : SessionRecord :=
  { id := "sess_c2", token := "sess_c2", mode := "portrait_chat",
    createdAt := 0, expiresAt := 1800000 }

def c2Cached : TurnCacheEntry :=
  { requestId := "req_c2", fixtureId := "fx_c2", createdAt := 0,
    expiresAt := 86400000, bodyHash := "stale-digest",
    timeline := { tracks := [] }, personaId := "socrates",
    idempotencyKey := "key-1", miss := {}, latencyMs := ⟨600, 1200⟩ }

def c2Store : SessionStore :=
  { sessions := [("sess_c2", c2Session)],
    idempotency := [("sess_c2", [("key-1", c2Cached)])],
    pendingTurns := [] }

def c2Data : TurnEntryData :=
  { requestId := "req_new", fixtureId := "fx_c2",
    timeline := { tracks := [] }, personaId := "socrates", miss := {},
    latencyMs := ⟨1, 2⟩ }

set_option maxRecDepth 10000 in
theorem C2_conflict_atomicity_witness :
    alookup c2Store.sessions "sess_c2" = some c2Session ∧
    (100 : Nat) < c2Session.expiresAt ∧
    alookup c2Store.idempotency "sess_c2" = some [("key-1", c2Cached)] ∧
    alookup [("key-1", c2Cached)] "key-1" = some c2Cached ∧
    c2Cached.bodyHash ≠ hashString "b" ∧
    putTurn {} c2Store 100 "sess_c2" "key-1" "b" c2Data =
      (.error .idempotencyBodyMismatch, c2Store) :=
  ⟨rfl, by decide, rfl, rfl, by decide,
   C2_conflict_atomicity {} c2Store 100 "sess_c2" "key-1" "b" c2Data
     c2Session [("key-1", c2Cached)] c2Cached rfl (by decide) rfl rfl
     (by decide)⟩

/-! ## C1 — idempotent replay -/

theorem enqueueTurn_sessions (st : SessionStore) (sid : String)
    (entry : TurnCacheEntry) : (enqueueTurn st sid entry).sessions = st.sessions := rfl

theorem enqueueTurn_idempotency (st : SessionStore) (sid : String)
    (entry : TurnCacheEntry) :
    (enqueueTurn st sid entry).idempotency = st.idempotency := rfl

theorem takePendingTurns_sessions (st : SessionStore) (sid : String) :
    (takePendingTurns st sid).2.sessions = st.sessions := rfl

theorem takePendingTurns_idempotency (st : SessionStore) (sid : String) :
    (takePendingTurns st sid).2.idempotency = st.idempotency := rfl

/-- C1: for a valid session and a fresh idempotency key, the first
`putTurn`-backed acceptance stores a new entry and fires the acceptance path
(counter increment, enqueue), and a second submission with the same
(session, key) and the same serialised body returns exactly that stored
entry (hence identical `requestId`/`fixtureId`) with `reused = true`,
mutates nothing (the store it returns is the post-first-call store), and
fires no acceptance effect. -/
theorem C1_idempotent_replay (cfg : EmuConfig) (st : SessionStore)
    (now1 now2 : Nat) (sid key bodyStr : String) (d : TurnEntryData)
    (s : SessionRecord) (hc1 hc2 : Bool)
    (hsess : alookup st.sessions sid = some s)
    (hvalid1 : now1 < s.expiresAt) (hvalid2 : now2 < s.expiresAt)
    (hfresh : alookup ((alookup st.idempotency sid).getD []) key = none) :
    (handleTurnCore cfg st now1 sid key bodyStr d hc1).1 =
      .ok ⟨mkTurnCacheEntry d key (hashString bodyStr) now1
             (now1 + cfg.idempotencyTtlSeconds * 1000), false⟩ ∧
    (handleTurnCore cfg st now1 sid key bodyStr d hc1).2.2.turnCounterInc = true ∧
    (handleTurnCore cfg st now1 sid key bodyStr d hc1).2.2.enqueued = true ∧
    handleTurnCore cfg (handleTurnCore cfg st now1 sid key bodyStr d hc1).2.1
        now2 sid key bodyStr d hc2 =
      (.ok ⟨mkTurnCacheEntry d key (hashString bodyStr) now1
              (now1 + cfg.idempotencyTtlSeconds * 1000), true⟩,
       (handleTurnCore cfg st now1 sid key bodyStr d hc1).2.1, noEffects) := by
  have hput1 := putTurn_fresh cfg st now1 sid key bodyStr d s hsess hvalid1 hfresh
  have h1 : ∃ stA effA,
      handleTurnCore cfg st now1 sid key bodyStr d hc1 =
        (.ok ⟨mkTurnCacheEntry d key (hashString bodyStr) now1
                (now1 + cfg.idempotencyTtlSeconds * 1000), false⟩, stA, effA) ∧
      stA.sessions = st.sessions ∧
      stA.idempotency = aset st.idempotency sid
        (aset ((alookup st.idempotency sid).getD []) key
          (mkTurnCacheEntry d key (hashString bodyStr) now1
            (now1 + cfg.idempotencyTtlSeconds * 1000))) ∧
      effA.turnCounterInc = true ∧ effA.enqueued = true := by
    unfold handleTurnCore
    rw [hput1]
    cases hc1 with
    | false =>
      refine ⟨_, _, rfl, ?_, ?_, rfl, rfl⟩ <;>
        simp [enqueueTurn, alookup_aset_self]
    | true =>
      refine ⟨_, _, rfl, ?_, ?_, rfl, rfl⟩ <;>
        simp [enqueueTurn, takePendingTurns, alookup_aset_self]
  obtain ⟨stA, effA, heq, hsessA, hidemA, hinc, henq⟩ := h1
  have hput2 : putTurn cfg stA now2 sid key bodyStr d =
      (.ok ⟨mkTurnCacheEntry d key (hashString bodyStr) now1
              (now1 + cfg.idempotencyTtlSeconds * 1000), true⟩, stA) := by
    apply putTurn_replay cfg stA now2 sid key bodyStr d s _ _
      (by rw [hsessA]; exact hsess) hvalid2
      (by rw [hidemA]; exact alookup_aset_self _ _ _)
      (alookup_aset_self _ _ _) rfl
  have h2 : handleTurnCore cfg stA now2 sid key bodyStr d hc2 =
      (.ok ⟨mkTurnCacheEntry d key (hashString bodyStr) now1
              (now1 + cfg.idempotencyTtlSeconds * 1000), true⟩, stA, noEffects) := by
    unfold handleTurnCore
    rw [hput2]
    simp
  refine ⟨?_, ?_, ?_, ?_⟩
  · rw [heq]
  · rw [heq]
    exact hinc
  · rw [heq]
    exact henq
  · rw [heq]
    exact h2

def c1Session : SessionRecord :=
  { id := "sess_c1", token := "sess_c1", mode := "portrait_chat",
    createdAt := 0, expiresAt := 1800000 }

def c1Store : SessionStore :=
  { sessions := [("sess_c1", c1Session)], idempotency := [],
    pendingTurns := [] }

def c1Data : TurnEntryData :=
  { requestId := "req_c1", fixtureId := "fx_c1",
    timeline := { tracks := [] }, personaId := "socrates", miss := {},
    latencyMs := ⟨600, 1200⟩ }

theorem C1_idempotent_replay_witness :
    alookup c1Store.sessions "sess_c1" = some c1Session ∧
    (5 : Nat) < c1Session.expiresAt ∧ (7 : Nat) < c1Session.expiresAt ∧
    alookup ((alookup c1Store.idempotency "sess_c1").getD []) "key-1" = none ∧
    ((handleTurnCore {} c1Store 5 "sess_c1" "key-1" "b" c1Data false).1 =
       .ok ⟨mkTurnCacheEntry c1Data "key-1" (hashString "b") 5
              (5 + ({} : EmuConfig).idempotencyTtlSeconds * 1000), false⟩ ∧
     (handleTurnCore {} c1Store 5 "sess_c1" "key-1" "b" c1Data
        false).2.2.turnCounterInc = true ∧
     (handleTurnCore {} c1Store 5 "sess_c1" "key-1" "b" c1Data
        false).2.2.enqueued = true ∧
     handleTurnCore {}
         (handleTurnCore {} c1Store 5 "sess_c1" "key-1" "b" c1Data false).2.1
         7 "sess_c1" "key-1" "b" c1Data true =
       (.ok ⟨mkTurnCacheEntry c1Data "key-1" (hashString "b") 5
               (5 + ({} : EmuConfig).idempotencyTtlSeconds * 1000), true⟩,
        (handleTurnCore {} c1Store 5 "sess_c1" "key-1" "b" c1Data false).2.1,
        noEffects)) :=
  ⟨rfl, by decide, by decide, rfl,
   C1_idempotent_replay {} c1Store 5 7 "sess_c1" "key-1" "b" c1Data
     c1Session false true rfl (by decide) (by decide) rfl⟩

/-! ## C5 — lazy eviction and the sweep purge completely -/

/-- C5: a session whose `expiresAt` has passed is reported absent by
`getSession`, which also removes the session record, the session's whole
idempotency partition and its whole pending queue, so no turn-cache entry or
queue item of that session remains reachable — without any sweep; and
`cleanupExpired` independently removes the same three pieces of state for
every expired session, and every surviving cache entry it leaves anywhere is
unexpired. -/
theorem C5_lazy_eviction_purges (st : SessionStore) (now : Nat) (sid : String)
    (s : SessionRecord) (hnodup : (st.sessions.map Prod.fst).Nodup)
    (hsess : alookup st.sessions sid = some s) (hexp : s.expiresAt ≤ now) :
    (getSession st now sid).1 = none ∧
    alookup (getSession st now sid).2.sessions sid = none ∧
    alookup (getSession st now sid).2.idempotency sid = none ∧
    alookup (getSession st now sid).2.pendingTurns sid = none ∧
    alookup (cleanupExpired st now).sessions sid = none ∧
    alookup (cleanupExpired st now).idempotency sid = none ∧
    alookup (cleanupExpired st now).pendingTurns sid = none ∧
    (∀ sid2 part key e,
      alookup (cleanupExpired st now).idempotency sid2 = some part →
      alookup part key = some e → now < e.expiresAt) := by
  have hxe : isExpired s.expiresAt now = true := by
    simp [isExpired]
    omega
  have hget : getSession st now sid =
      (none,
       { sessions := aerase st.sessions sid,
         idempotency := aerase st.idempotency sid,
         pendingTurns := aerase st.pendingTurns sid }) := by
    unfold getSession
    rw [hsess]
    simp [hxe]
  have hmem : (sid, s) ∈ st.sessions := alookup_mem hsess
  have hdead : sid ∈ ((st.sessions.filter fun p =>
      isExpired p.2.expiresAt now).map Prod.fst) :=
    List.mem_map.mpr ⟨(sid, s), List.mem_filter.mpr ⟨hmem, hxe⟩, rfl⟩
  have hcontains : (((st.sessions.filter fun p =>
      isExpired p.2.expiresAt now).map Prod.fst).contains sid) = true := by
    simpa using hdead
  refine ⟨by rw [hget], by rw [hget]; exact alookup_aerase_self _ _,
          by rw [hget]; exact alookup_aerase_self _ _,
          by rw [hget]; exact alookup_aerase_self _ _, ?_, ?_, ?_, ?_⟩
  · apply alookup_eq_none
    intro v hv
    have hv2 := List.mem_filter.mp hv
    have hveq : v = s := nodup_keys_unique hnodup hv2.1 hmem
    rw [hveq] at hv2
    rw [hxe] at hv2
    simp at hv2
  · apply alookup_eq_none
    intro part hpart
    have h1 := List.mem_filter.mp hpart
    obtain ⟨q, hq1, hq2⟩ := List.mem_map.mp h1.1
    have hq3 := List.mem_filter.mp hq1
    have hkey : q.1 = sid := by
      have := congrArg Prod.fst hq2
      simpa using this
    rw [hkey] at hq3
    have hq4 := hq3.2
    rw [hcontains] at hq4
    simp at hq4
  · apply alookup_eq_none
    intro q hq
    have hq2 := List.mem_filter.mp hq
    have hq4 := hq2.2
    rw [hcontains] at hq4
    simp at hq4
  · intro sid2 part key e h1 h2
    have hpmem := alookup_mem h1
    have h3 := List.mem_filter.mp hpmem
    obtain ⟨q, _, hq2⟩ := List.mem_map.mp h3.1
    have hparteq : part = q.2.filter fun r => !(isExpired r.2.expiresAt now) := by
      have := congrArg Prod.snd hq2
      simpa using this.symm
    have hemem := alookup_mem h2
    rw [hparteq] at hemem
    have h4 := (List.mem_filter.mp hemem).2
    simp [isExpired] at h4
    omega

def c5ExpiredSession : SessionRecord :=
  { id := "sess_c5", token := "sess_c5", mode := "portrait_chat",
    createdAt := 0, expiresAt := 90 }

def c5Entry : TurnCacheEntry :=
  { requestId := "req_c5", fixtureId := "fx_c5", createdAt := 0,
    expiresAt := 50, bodyHash := "h", timeline := { tracks := [] },
    personaId := "socrates", idempotencyKey := "key-5", miss := {},
    latencyMs := ⟨600, 1200⟩ }

def c5Store : SessionStore :=
  { sessions := [("sess_c5", c5ExpiredSession)],
    idempotency := [("sess_c5", [("key-5", c5Entry)])],
    pendingTurns := [("sess_c5", [c5Entry])] }

theorem C5_lazy_eviction_purges_witness :
    (c5Store.sessions.map Prod.fst).Nodup ∧
    alookup c5Store.sessions "sess_c5" = some c5ExpiredSession ∧
    c5ExpiredSession.expiresAt ≤ 100 ∧
    ((getSession c5Store 100 "sess_c5").1 = none ∧
     alookup (getSession c5Store 100 "sess_c5").2.sessions "sess_c5" = none ∧
     alookup (getSession c5Store 100 "sess_c5").2.idempotency "sess_c5" = none ∧
     alookup (getSession c5Store 100 "sess_c5").2.pendingTurns "sess_c5" = none ∧
     alookup (cleanupExpired c5Store 100).sessions "sess_c5" = none ∧
     alookup (cleanupExpired c5Store 100).idempotency "sess_c5" = none ∧
     alookup (cleanupExpired c5Store 100).pendingTurns "sess_c5" = none ∧
     (∀ sid2 part key e,
       alookup (cleanupExpired c5Store 100).idempotency sid2 = some part →
       alookup part key = some e → 100 < e.expiresAt)) :=
  ⟨by decide, rfl, by decide,
   C5_lazy_eviction_purges c5Store 100 "sess_c5" c5ExpiredSession (by decide)
     rfl (by decide)⟩

def c3Session : SessionRecord :=
  { id := "sess_alpha", token := "sess_alpha", mode := "portrait_chat",
    createdAt := 0, expiresAt := 1800000 }

def c3Store : SessionStore :=
  { sessions := [("sess_alpha", c3Session)], idempotency := [],
    pendingTurns := [] }

def c3Body : TurnRequestBody :=
  { transcript := some { text := "hello" }, persona_id := "socrates",
    session_id := some "sess_alpha" }

def c3Rnd : TurnRandomness :=
  { sessionUuid := "fresh01", requestUuid := "r01", missTtsRoll := 0,
    missClipRoll := 0, audioJitterRoll := 0, clipJitterRoll := 0 }

/-- C3 (defect evaluation): the handler derives its lookup key from a fresh
`sess_${randomUUID()}` instead of the caller-supplied session.  Here the
store holds the live, unexpired session `sess_alpha` and the request carries
`session_id = "sess_alpha"`, yet the handler — generating the fresh
identifier `sess_fresh01` — answers 404 `EMU_SESSION_UNKNOWN`, so
`SessionNotFound` does not occur "exactly when the caller-supplied session
is absent or expired" as the claim requires. -/
theorem C3_session_resolution_defect :
    c3Body.session_id = some "sess_alpha" ∧
    (getSession c3Store 100 "sess_alpha").1 = some c3Session ∧
    handleTurn {} ⟨[], []⟩ c3Store 100 (some "idem-1") c3Body c3Rnd false =
      (.error .sessionUnknown, c3Store, noEffects) := by
  refine ⟨rfl, by decide, by decide⟩

/-! ## C8 — clip-miss rendering -/

/-- C8: rendering any fixture with the clip-miss flag set yields a timeline
with no video-typed tracks, an (assigned) empty swap-point list, and
`miss_clip = true` in its metadata; and `percentToHit 100` hits on every
random draw, so a clip-miss percentage of 100 forces this on every turn. -/
theorem C8_clip_miss_rendering (cfg : EmuConfig) (now : Nat)
    (fixture : LoadedFixture) (miss : MissFlags) (hclip : miss.clip = true) :
    ((applyFixtureToggles cfg now fixture miss).tracks.filter
      fun track => track.type = "video") = [] ∧
    (applyFixtureToggles cfg now fixture miss).swap_points = some [] ∧
    (∃ meta, (applyFixtureToggles cfg now fixture miss).meta = some meta ∧
      meta.miss_clip = some true) ∧
    (∀ r : ℚ, percentToHit 100 r = true) := by
  refine ⟨?_, ?_, ?_, ?_⟩
  · simp only [applyFixtureToggles, hclip, if_true, List.filter_filter]
    apply List.filter_eq_nil_iff.mpr
    intro track _
    by_cases h : track.type = "video" <;> simp [h]
  · simp [applyFixtureToggles, hclip]
  · simp only [applyFixtureToggles, hclip, if_true]
    by_cases htts : miss.tts <;> by_cases hpair : cfg.pairAudioOnly <;>
      simp [htts, hpair]
  · intro r
    simp [percentToHit]

theorem C8_clip_miss_rendering_witness :
    (⟨false, true⟩ : MissFlags).clip = true ∧
    (((applyFixtureToggles {} 0
        { id := "fx_demo", persona_id := "socrates",
          timeline := { tracks := [{ type := "video", id := "v1" },
                                   { type := "audio", id := "a1" }],
                        swap_points := some [{ «at» := 2 }] } }
        ⟨false, true⟩).tracks.filter fun track => track.type = "video") = [] ∧
     (applyFixtureToggles {} 0
        { id := "fx_demo", persona_id := "socrates",
          timeline := { tracks := [{ type := "video", id := "v1" },
                                   { type := "audio", id := "a1" }],
                        swap_points := some [{ «at» := 2 }] } }
        ⟨false, true⟩).swap_points = some [] ∧
     (∃ meta, (applyFixtureToggles {} 0
        { id := "fx_demo", persona_id := "socrates",
          timeline := { tracks := [{ type := "video", id := "v1" },
                                   { type := "audio", id := "a1" }],
                        swap_points := some [{ «at» := 2 }] } }
        ⟨false, true⟩).meta = some meta ∧ meta.miss_clip = some true) ∧
     (∀ r : ℚ, percentToHit 100 r = true)) :=
  ⟨rfl, C8_clip_miss_rendering {} 0
    { id := "fx_demo", persona_id := "socrates",
      timeline := { tracks := [{ type := "video", id := "v1" },
                               { type := "audio", id := "a1" }],
                    swap_points := some [{ «at» := 2 }] } }
    ⟨false, true⟩ rfl⟩

/-! ## C4 — per-turn delivery ordering (the `turn_started` event) -/

/-- The sample entry a subscriber receives: no simulated misses, one video
track of 3 seconds, one swap point, explicit idle-after of 2000 ms, audio
latency 600 ms and clip latency 1200 ms. -/
def c4Entry : TurnCacheEntry :=
  { requestId := "req_c4", fixtureId := "fx_c4",
    createdAt := 0, expiresAt := 86400000,
    bodyHash := "", personaId := "socrates", idempotencyKey := "key-c4",
    miss := ⟨false, false⟩, latencyMs := ⟨600, 1200⟩,
    timeline :=
      { tracks := [{ type := "video", id := "v1", offset := some 0,
                     duration := some 3 }],
        swap_points := some [{ «at» := 2 }],
        meta := some { stage_idle_after_ms := some 2000 } } }

/-- C4: the claim's per-turn event sequence requires a `turn_started` signal
between the miss signals and the idle-stop, but `SseHub.dispatchTurn` in
`src/sse.ts` never emits one: for the sample entry the emission schedule is
exactly `stop_idle, timeline (at 600 ms), swap hints (at 1200 ms), play_idle
(at 600+2000 ms)` and no scheduled message is a `turn_started` event —
contradicting the repository's own AGENTS.md ordering
(`turn_started → timeline → swap → stage.play_idle`). -/
theorem C4_missing_turn_started :
    ((dispatchSchedule "sess_c4" c4Entry).map fun e => (e.1, sseTag e.2)) =
      [((0 : ℚ), "stage.stop_idle"), ((600 : ℚ), "timeline"),
       ((1200 : ℚ), "stage_hints"), ((2600 : ℚ), "stage.play_idle")] ∧
    ∀ e ∈ dispatchSchedule "sess_c4" c4Entry, isTurnStarted e.2 = false := by
  constructor
  · simp only [dispatchSchedule, c4Entry, idleAfterOf, sseTag]
    norm_num
  · intro e he
    simp only [dispatchSchedule, c4Entry] at he
    norm_num at he
    rcases he with h | h | h | h <;> rw [h] <;> rfl

theorem C9_jitter_bound_amended_witness :
    (0 : ℚ) ≤ 1000 ∧ (0 : ℚ) ≤ 1 / 2 ∧ (1 / 2 : ℚ) < 1 ∧
    (max 0 ((1000 : ℚ) - ((100 : ℕ) : ℚ)) ≤ withJitter 1000 ((100 : ℕ) : ℚ) (1 / 2) ∧
     withJitter 1000 ((100 : ℕ) : ℚ) (1 / 2) ≤ 1000 + ((100 : ℕ) : ℚ)) :=
  ⟨by norm_num, by norm_num, by norm_num,
   C9_jitter_bound_amended 1000 100 (1 / 2) (by norm_num) (by norm_num) (by norm_num)⟩

end Emu
